import Mathlib

/-!
Verification of the turn-bounded tool-calling orchestrator in
iantheconway/filthy-clanker.

The development shallowly embeds the parts of the repository that the
checked properties are about:

* `src/llms/anthropic_client.py` and `src/llms/gemini_client.py` — the two
  provider adapters: response decomposition (`generate_response` parsing),
  `make_assistant_message`, `make_tool_result_message`, and the Gemini
  schema-cleaning transform `_convert_schema`;
* `src/main.py` (`chat_loop`) — one iteration of the chat loop, i.e. one
  human turn, with the LLM backend and the MCP tool executor supplied as
  oracles (an `Except` value per generation call, a per-position `Except`
  for each tool dispatch);
* `src/session.py` — `save_session_json` / `load_session_json` modelled at
  the JSON-value level (the `json.dump`/`json.load` text stage is the
  identity on the finite, string-keyed, float-free values produced here),
  and `save_summary` modelled by the content the file write receives.

Python dicts are embedded as ordered association lists, machine strings as
`String`, raised exceptions as `Except`/`Option` failure values.
-/

namespace Chat

/-- JSON-like values: the payloads that tool arguments, tool schemas and
serialized sessions are made of. Objects are insertion-ordered association
lists, matching Python dict ordering. -/
inductive Json where
  | null
  | bool (b : Bool)
  | num (n : Int)
  | str (s : String)
  | arr (elems : List Json)
  | obj (members : List (String × Json))

/-- One content part of a conversation-history message, covering the exact
dict shapes `src/main.py` and the two clients append to `messages`. -/
inductive Part where
  /-- Anthropic text block: `\x7b"type": "text", "text": s\x7d`. -/
  | atext (s : String)
  /-- Anthropic tool-use block: `\x7b"type": "tool_use", "id", "name", "input"\x7d`. -/
  | toolUse (id : String) (name : String) (input : Json)
  /-- Anthropic tool-result block: `\x7b"type": "tool_result", "tool_use_id", "content"\x7d`. -/
  | toolResult (toolUseId : String) (content : String)
  /-- Gemini text part: `\x7b"text": s\x7d`. -/
  | gtext (s : String)
  /-- Gemini function-call part: `\x7b"function_call": \x7b"name", "args"\x7d\x7d`. -/
  | functionCall (name : String) (args : Json)
  /-- Gemini function-response part:
  `\x7b"function_response": \x7b"name", "response": \x7b"result"\x7d\x7d\x7d`. -/
  | functionResponse (name : String) (result : String)

/-- Message content: either a plain string or a list of typed parts. -/
inductive Content where
  | str (s : String)
  | parts (ps : List Part)

/-- A conversation-history message, `\x7b"role": ..., "content": ...\x7d`. -/
structure Message where
  role : String
  content : Content

/-- A parsed tool call, as produced by `generate_response` in both clients:
`\x7b"id", "name", "arguments"\x7d`. -/
structure ToolCall where
  id : String
  name : String
  arguments : Json

/-- The fields of the dict returned by `generate_response` that the
orchestrator inspects (the raw vendor handle is carried separately). -/
structure Parsed where
  text : Option String
  tool_calls : List ToolCall

/-- An Anthropic response content block, as consumed by
`AnthropicClient.generate_response` and `make_assistant_message`
(`block.type` is `"text"` or `"tool_use"`; other block kinds are skipped by
both loops, so they are not modelled). -/
inductive ABlock where
  | text (s : String)
  | toolUse (id : String) (name : String) (input : Json)

/-- A Gemini candidate content part, as consumed by
`GeminiClient.generate_response`. The `functionCall` argument list models
`fc.args`; an empty list covers the falsy `fc.args` branch, which the code
turns into `\x7b\x7d` as well. -/
inductive GPart where
  | text (s : String)
  | functionCall (name : String) (args : List (String × Json))

namespace AnthropicClient

/-- The response-decomposition step of `AnthropicClient.generate_response`
(`anthropic_client.py` lines 45-62): text blocks are collected and joined
with newlines (`None` when there are none), `tool_use` blocks become tool
calls in order. The single source loop is split into two `filterMap`
passes, which preserve the same order. -/
def parseGen (raw : List ABlock) : Parsed :=
  let textParts := raw.filterMap fun b => match b with
    | .text s => some s
    | _ => none
  let toolCalls := raw.filterMap fun b => match b with
    | .toolUse i n inp => some ⟨i, n, inp⟩
    | _ => none
  { text := if textParts.isEmpty then none else some (String.intercalate "\n" textParts),
    tool_calls := toolCalls }

/-- `AnthropicClient.make_assistant_message` (lines 76-91): rebuilds the
assistant message from the raw response blocks, keeping text and tool-use
blocks in their original order. -/
def make_assistant_message (raw : List ABlock) : Message :=
  ⟨"assistant", .parts (raw.map fun b => match b with
    | .text s => .atext s
    | .toolUse i n inp => .toolUse i n inp)⟩

/-- `AnthropicClient.make_tool_result_message` (lines 67-74): a single
`tool_result` content block, later grouped into one user message. -/
def make_tool_result_message (toolCallId : String) (result : String) : Part :=
  .toolResult toolCallId result

end AnthropicClient

namespace GeminiClient

/-- The response-decomposition step of `GeminiClient.generate_response`
(`gemini_client.py` lines 95-114): nonempty text parts are collected (the
`if part.text:` truthiness test skips empty strings) and joined with
newlines; function-call parts become tool calls whose id is the function
name. The single source loop is split into two `filterMap` passes, which
preserve the same order. -/
def parseGen (raw : List GPart) : Parsed :=
  let textParts := raw.filterMap fun q => match q with
    | .text s => if s = "" then none else some s
    | _ => none
  let toolCalls := raw.filterMap fun q => match q with
    | .functionCall n args => some ⟨n, n, Json.obj args⟩
    | _ => none
  { text := if textParts.isEmpty then none else some (String.intercalate "\n" textParts),
    tool_calls := toolCalls }

/-- `GeminiClient.make_assistant_message` (lines 119-129): built from the
parsed response dict, not the raw vendor parts — the joined text (when
truthy) first, then one function-call part per parsed tool call. -/
def make_assistant_message (response : Parsed) : Message :=
  let textContent : List Part := match response.text with
    | some t => if t = "" then [] else [.gtext t]
    | none => []
  ⟨"assistant",
    .parts (textContent ++ response.tool_calls.map fun tc => .functionCall tc.name tc.arguments)⟩

/-- `GeminiClient.make_tool_result_message` (lines 131-142): a standalone
user message holding one function-response part. -/
def make_tool_result_message (toolName : String) (result : String) : Message :=
  ⟨"user", .parts [.functionResponse toolName result]⟩

end GeminiClient

/-- The LLM provider selected at startup (`chat_loop` derives it from the
class of `llm_client`). -/
inductive Provider where
  | anthropic
  | gemini

/-- The raw wire reply of a generation call, per provider. -/
def RawResp : Provider → Type
  | .anthropic => List ABlock
  | .gemini => List GPart

/-- Provider dispatch for response decomposition, as performed inside
`generate_response` of the active client. -/
def parseResponse : (p : Provider) → RawResp p → Parsed
  | .anthropic, raw => AnthropicClient.parseGen raw
  | .gemini, raw => GeminiClient.parseGen raw

/-- Provider dispatch for `make_assistant_message`, as in `chat_loop`: the
Anthropic client rebuilds from the raw blocks, the Gemini client from the
parsed text and tool calls. -/
def mkAssistantMessage : (p : Provider) → RawResp p → Message
  | .anthropic, raw => AnthropicClient.make_assistant_message raw
  | .gemini, raw => GeminiClient.make_assistant_message (GeminiClient.parseGen raw)

/-- Oracles for one human turn: the wire outcome of the first and of the
follow-up `generate_response` call (`.error` models a raised exception),
and the outcome of each `mcp_client.call_tool` dispatch, indexed by the
position of the call in the round. -/
structure TurnEnv (p : Provider) where
  first : Except String (RawResp p)
  followup : Except String (RawResp p)
  tool : Nat → ToolCall → Except String String

/-- The text fed back for one tool dispatch: the tool output on success,
or the caught-exception text `"Error executing tool: <cause>"`
(`main.py` lines 283-286). -/
def resText : Except String String → String
  | .ok s => s
  | .error e => "Error executing tool: " ++ e

/-- Accumulator of the tool-execution loop (`main.py` lines 280-296):
`parts` is `tool_result_parts` (Anthropic), `msgs` the per-call messages
appended directly (Gemini), `executed` the ghost log of dispatched calls. -/
structure RoundAcc where
  parts : List Part
  msgs : List Message
  executed : List ToolCall

/-- The `for tc in tool_calls` loop of `chat_loop`: executes each call in
order (failures are caught inside the body, so no iteration is skipped)
and routes the result per provider. `i` is the position of the head call. -/
def execLoop (p : Provider) (tool : Nat → ToolCall → Except String String) :
    Nat → List ToolCall → RoundAcc
  | _, [] => ⟨[], [], []⟩
  | i, c :: cs =>
    let result := resText (tool i c)
    let acc := execLoop p tool (i + 1) cs
    match p with
    | .anthropic =>
        ⟨AnthropicClient.make_tool_result_message c.id result :: acc.parts,
         acc.msgs, c :: acc.executed⟩
    | .gemini =>
        ⟨acc.parts,
         GeminiClient.make_tool_result_message c.name result :: acc.msgs,
         c :: acc.executed⟩

/-- The tool-result messages a round appends to history: for Anthropic one
user message holding all `tool_result` parts (when nonempty, `main.py`
lines 299-300), for Gemini the per-call messages in execution order. -/
def toolResultMessages (p : Provider) (tool : Nat → ToolCall → Except String String)
    (tcs : List ToolCall) : List Message :=
  let acc := execLoop p tool 0 tcs
  match p with
  | .anthropic => if acc.parts.isEmpty then [] else [⟨"user", .parts acc.parts⟩]
  | .gemini => acc.msgs

/-- Observable outcome of one human turn: the conversation list, the ghost
log of dispatched tool calls, and instrumentation counters for how many
`generate_response` calls were issued (total, and follow-up ones). -/
structure TurnOut where
  messages : List Message
  executed : List ToolCall
  genCalls : Nat
  followupCalls : Nat

/-- One human turn of `chat_loop` (`main.py` lines 242-320), starting after
the command/empty-input filtering: append the user message; on first-call
failure pop it (both `except` arms); otherwise parse tool calls, and either
append the assistant message and stop (pure text), or append the assistant
message, run exactly one tool round, and issue exactly one follow-up call
whose failure leaves the appended messages in place. -/
def runTurn (p : Provider) (env : TurnEnv p) (messages : List Message)
    (userInput : String) : TurnOut :=
  let msgs1 := messages ++ [⟨"user", .str userInput⟩]
  match env.first with
  | .error _ => ⟨msgs1.dropLast, [], 1, 0⟩
  | .ok raw =>
    let tool_calls := (parseResponse p raw).tool_calls
    if tool_calls.isEmpty then
      ⟨msgs1 ++ [mkAssistantMessage p raw], [], 1, 0⟩
    else
      let msgs3 := (msgs1 ++ [mkAssistantMessage p raw])
        ++ toolResultMessages p env.tool tool_calls
      match env.followup with
      | .error _ => ⟨msgs3, (execLoop p env.tool 0 tool_calls).executed, 2, 1⟩
      | .ok fraw =>
          ⟨msgs3 ++ [mkAssistantMessage p fraw],
           (execLoop p env.tool 0 tool_calls).executed, 2, 1⟩

/-- Python `str.strip()` on the ASCII whitespace relevant here: drop
leading and trailing whitespace characters. -/
def pyStrip (s : String) : String :=
  String.mk (((s.toList.dropWhile Char.isWhitespace).reverse.dropWhile
    Char.isWhitespace).reverse)

/-- Python `str.lower()` on ASCII strings. -/
def pyLower (s : String) : String :=
  String.mk (s.toList.map Char.toLower)

/-- One iteration of the `while True` loop of `chat_loop` (`main.py` lines
220-240 plus the turn body): strip the input; `exit`/`quit` breaks (the
auto-save does not touch `messages`); empty input continues; a slash
command is handled by `_handle_command`, supplied as an oracle returning
the new message list and how many generation calls it issued; anything
else runs one turn. -/
def chat_loop_step (p : Provider) (env : TurnEnv p)
    (handleCommand : List Message → List Message × Nat)
    (messages : List Message) (rawInput : String) : TurnOut :=
  let userInput := pyStrip rawInput
  if pyLower userInput = "exit" ∨ pyLower userInput = "quit" then
    ⟨messages, [], 0, 0⟩
  else if userInput = "" then
    ⟨messages, [], 0, 0⟩
  else if userInput.startsWith "/" then
    let hc := handleCommand messages
    ⟨hc.1, [], hc.2, 0⟩
  else
    runTurn p env messages userInput

/-! ### Session store (`src/session.py`) -/

/-- The JSON value a `Part` dict is, when the session is serialized. -/
def encodePart : Part → Json
  | .atext s => .obj [("type", .str "text"), ("text", .str s)]
  | .toolUse i n inp =>
      .obj [("type", .str "tool_use"), ("id", .str i), ("name", .str n), ("input", inp)]
  | .toolResult i c =>
      .obj [("type", .str "tool_result"), ("tool_use_id", .str i), ("content", .str c)]
  | .gtext s => .obj [("text", .str s)]
  | .functionCall n args =>
      .obj [("function_call", .obj [("name", .str n), ("args", args)])]
  | .functionResponse n r =>
      .obj [("function_response",
        .obj [("name", .str n), ("response", .obj [("result", .str r)])])]

/-- The JSON value message content is when serialized. -/
def encodeContent : Content → Json
  | .str s => .str s
  | .parts ps => .arr (ps.map encodePart)

/-- The JSON value a message dict is when serialized. -/
def encodeMessage (m : Message) : Json :=
  .obj [("role", .str m.role), ("content", encodeContent m.content)]

/-- `save_session_json` (`session.py` lines 17-26): the session file
content, as the JSON value `json.dump` receives. The dump/load text stage
is the identity on these values, so the file is modelled by the value. -/
def save_session_json (messages : List Message) (provider : String)
    (timestamp : String) : Json :=
  .obj [("timestamp", .str timestamp), ("provider", .str provider),
        ("messages", .arr (messages.map encodeMessage))]

/-- First-match key lookup in an embedded dict (`data[key]`; `none` models
a raised `KeyError`). -/
def lookupKey : List (String × Json) → String → Option Json
  | [], _ => none
  | (k, v) :: rest, key => if k = key then some v else lookupKey rest key

/-- `load_session_json` (`session.py` lines 29-33): reads back the parsed
file value and returns `(data["messages"], data["provider"])`. -/
def load_session_json (file : Json) : Option (Json × Json) :=
  match file with
  | .obj kvs => do
      let msgs ← lookupKey kvs "messages"
      let prov ← lookupKey kvs "provider"
      some (msgs, prov)
  | _ => none

/-- Inverse of `encodePart`, witnessing that serialization loses no part
structure (the source keeps loaded messages as raw dicts, so structural
equality of the round trip is equality of these JSON values). -/
def decodePart : Json → Option Part
  | .obj [("type", .str "text"), ("text", .str s)] => some (.atext s)
  | .obj [("type", .str "tool_use"), ("id", .str i), ("name", .str n), ("input", inp)] =>
      some (.toolUse i n inp)
  | .obj [("type", .str "tool_result"), ("tool_use_id", .str i), ("content", .str c)] =>
      some (.toolResult i c)
  | .obj [("text", .str s)] => some (.gtext s)
  | .obj [("function_call", .obj [("name", .str n), ("args", args)])] =>
      some (.functionCall n args)
  | .obj [("function_response",
      .obj [("name", .str n), ("response", .obj [("result", .str r)])])] =>
      some (.functionResponse n r)
  | _ => none

/-- Inverse of `encodePart` on part lists. -/
def decodeParts : List Json → Option (List Part)
  | [] => some []
  | j :: js => do
      let pt ← decodePart j
      let ps ← decodeParts js
      some (pt :: ps)

/-- Inverse of `encodeContent`. -/
def decodeContent : Json → Option Content
  | .str s => some (.str s)
  | .arr items => (decodeParts items).map Content.parts
  | _ => none

/-- Inverse of `encodeMessage`. -/
def decodeMessage : Json → Option Message
  | .obj [("role", .str r), ("content", c)] => (decodeContent c).map (⟨r, ·⟩)
  | _ => none

/-- Inverse of `encodeMessage` on message lists. -/
def decodeMessages : List Json → Option (List Message)
  | [] => some []
  | j :: js => do
      let m ← decodeMessage j
      let ms ← decodeMessages js
      some (m :: ms)

/-- `save_summary` (`session.py` lines 36-57), abstracted over the outcome
of the summary generation call: the argument is `.error e` when
`generate_response` raised `e`, and `.ok t` with `t = response["text"]`
(the `"text"` key is always present, so the `.get` default never fires)
when it returned. The result is the string handed to `f.write`, or `none`
when the write itself raises (`f.write(None)` is a `TypeError`, leaving
the just-truncated file empty). -/
def save_summary (gen : Except String (Option String)) : Option String :=
  match gen with
  | .error e => some ("*Summary generation failed: " ++ e ++ "*")
  | .ok (some t) => some t
  | .ok none => none

/-! ### Gemini schema cleaning (`GeminiClient._convert_schema`) -/

/-- The keys stripped by `_convert_schema` (`gemini_client.py` line 22). -/
def UNSUPPORTED (k : String) : Bool :=
  k = "$schema" || k = "additionalProperties"

mutual
/-- `GeminiClient._convert_schema` (`gemini_client.py` lines 15-33).
`none` models a raised exception: the source calls `.items()` on the
argument and on every value under `"properties"`, so a non-dict there
raises. The source first filters the unsupported keys out of the dict and
then reassigns the (surviving) `"properties"`/`"items"` values in place;
`convertEntries` fuses the two passes, which touch disjoint keys, into
one ordered traversal of the entry list. -/
def convert_schema (j : Json) : Option Json :=
  match j with
  | .obj kvs => (convertEntries kvs).map Json.obj
  | _ => none
termination_by structural j

/-- Entry-list traversal of `_convert_schema`: drop unsupported keys and
rewrite the value of each kept entry through `convertValue`. -/
def convertEntries (kvs : List (String × Json)) : Option (List (String × Json)) :=
  match kvs with
  | [] => some []
  | (k, v) :: rest =>
    if UNSUPPORTED k then convertEntries rest
    else do
      let v' ← convertValue k v
      let rest' ← convertEntries rest
      some ((k, v') :: rest')
termination_by structural kvs

/-- How `_convert_schema` treats the value of one kept entry: recurse into
the `"properties"` table (raising on a non-dict), recurse into a
dict-valued `"items"` (the `isinstance` guard keeps a non-dict `"items"`
untouched), keep every other value unchanged. -/
def convertValue (k : String) (v : Json) : Option Json :=
  if k = "properties" then
    match v with
    | .obj props => (convertProps props).map Json.obj
    | _ => none
  else if k = "items" then
    match v with
    | .obj ikvs => (convertEntries ikvs).map Json.obj
    | _ => some v
  else some v
termination_by structural v

/-- The `"properties"` dict comprehension: clean every property schema,
keep names and order. -/
def convertProps (ps : List (String × Json)) : Option (List (String × Json)) :=
  match ps with
  | [] => some []
  | (n, p) :: rest => do
      let p' ← convert_schema p
      let rest' ← convertProps rest
      some ((n, p') :: rest')
termination_by structural ps
end

mutual
/-- Modelled from the spec: the cleaning `_convert_schema` is required to
perform — remove the vendor-unsupported keywords at every nesting level
reachable through object properties and array item schemas, and leave
every other key and the nested structure unchanged. Total; stated
independently of the source so the code can be compared against it. -/
def cleanSpec (j : Json) : Json :=
  match j with
  | .obj kvs => .obj (cleanEntries kvs)
  | j => j
termination_by structural j

/-- Entry-list part of `cleanSpec`. -/
def cleanEntries (kvs : List (String × Json)) : List (String × Json) :=
  match kvs with
  | [] => []
  | (k, v) :: rest =>
    if UNSUPPORTED k then cleanEntries rest
    else (k, cleanValue k v) :: cleanEntries rest
termination_by structural kvs

/-- Value cleaning for one kept entry of `cleanSpec`: the `"properties"`
table is cleaned pointwise, a dict-valued `"items"` schema is cleaned,
everything else is left unchanged. -/
def cleanValue (k : String) (v : Json) : Json :=
  if k = "properties" then
    match v with
    | .obj props => .obj (cleanProps props)
    | j => j
  else if k = "items" then
    match v with
    | .obj ikvs => .obj (cleanEntries ikvs)
    | j => j
  else v
termination_by structural v

/-- Pointwise cleaning of a property table. -/
def cleanProps (ps : List (String × Json)) : List (String × Json) :=
  match ps with
  | [] => []
  | (n, p) :: rest => (n, cleanSpec p) :: cleanProps rest
termination_by structural ps
end

mutual
/-- The schemas on which `_convert_schema` runs without raising: the value
is a dict whose kept entries all have well-formed values. -/
def schemaWF (j : Json) : Bool :=
  match j with
  | .obj kvs => entriesWF kvs
  | _ => false
termination_by structural j

/-- Entry-list part of `schemaWF`. -/
def entriesWF (kvs : List (String × Json)) : Bool :=
  match kvs with
  | [] => true
  | (k, v) :: rest => (UNSUPPORTED k || entryWF k v) && entriesWF rest
termination_by structural kvs

/-- Value well-formedness for one kept entry: a `"properties"` value must
be a dict of well-formed schemas, a dict-valued `"items"` must be
well-formed inside (a non-dict `"items"` is fine — the source guards it
with `isinstance`), and any other value is unconstrained. -/
def entryWF (k : String) (v : Json) : Bool :=
  if k = "properties" then
    match v with
    | .obj props => propsWF props
    | _ => false
  else if k = "items" then
    match v with
    | .obj ikvs => entriesWF ikvs
    | _ => true
  else true
termination_by structural v

/-- Property-table part of `schemaWF`. -/
def propsWF (ps : List (String × Json)) : Bool :=
  match ps with
  | [] => true
  | (_n, p) :: rest => schemaWF p && propsWF rest
termination_by structural ps
end

/-! ### Observers, mirrors and concrete witness data -/

/-- Indexed map with explicit start index: the shape of the per-call data
the tool-execution loop produces. -/
def mapWithIndex {α β : Type} (f : Nat → α → β) : Nat → List α → List β
  | _, [] => []
  | i, a :: l => f i a :: mapWithIndex f (i + 1) l

/-- How many tool-result entries a round appended: parts of the single
batched user message for Anthropic, whole messages for Gemini. -/
def toolResultCount (p : Provider) (ms : List Message) : Nat :=
  match p with
  | .anthropic =>
    match ms with
    | [⟨_, .parts ps⟩] => ps.length
    | _ => 0
  | .gemini => ms.length

/-- The result text carried by an Anthropic `tool_result` part. -/
def partResultText : Part → Option String
  | .toolResult _ c => some c
  | _ => none

/-- The result text carried by a Gemini function-response message. -/
def messageResultText : Message → Option String
  | ⟨_, .parts [.functionResponse _ r]⟩ => some r
  | _ => none

/-- All result texts of a round, in order, read back out of the appended
messages. -/
def allToolResultTexts (p : Provider) (ms : List Message) : List String :=
  match p with
  | .anthropic =>
    match ms with
    | [⟨_, .parts ps⟩] => ps.filterMap partResultText
    | _ => []
  | .gemini => ms.filterMap messageResultText

/-- The history tail a turn gains after the tool round: the follow-up
assistant message when the follow-up call returns, nothing when it
raises. -/
def followupTail (p : Provider) (env : TurnEnv p) : List Message :=
  match env.followup with
  | .error _ => []
  | .ok fraw => [mkAssistantMessage p fraw]

/-- The history part that mirrors one Anthropic response block one-to-one. -/
def mirrorABlock : ABlock → Part
  | .text s => .atext s
  | .toolUse i n inp => .toolUse i n inp

/-- The history part that mirrors one Gemini vendor part one-to-one. -/
def mirrorGPart : GPart → Part
  | .text s => .gtext s
  | .functionCall n args => .functionCall n (.obj args)

/-- Just the tool-call parts of a Gemini vendor reply, mirrored in order. -/
def mirrorGCall : GPart → Option Part
  | .functionCall n args => some (.functionCall n (.obj args))
  | _ => none

/-- The leading text content of a Gemini assistant history message: one
part holding the truthy joined text, nothing otherwise. -/
def geminiTextLead (raw : List GPart) : List Part :=
  match (GeminiClient.parseGen raw).text with
  | some t => if t = "" then [] else [.gtext t]
  | none => []

/-- Constructor tag of a part (used to separate part kinds in proofs). -/
def partTag : Part → Nat
  | .atext _ => 0
  | .toolUse _ _ _ => 1
  | .toolResult _ _ => 2
  | .gtext _ => 3
  | .functionCall _ _ => 4
  | .functionResponse _ _ => 5

/-- The sequence of part kinds of a message. -/
def messageTags (m : Message) : List Nat :=
  match m.content with
  | .str _ => []
  | .parts ps => ps.map partTag

/-- A Gemini vendor reply that places a function call before its text. -/
def gemCE : List GPart :=
  [.functionCall "http_probe" [("host", .str "pterodactyl.htb")], .text "done"]

/-- A nested tool schema with vendor-unsupported keys at three levels. -/
def exSchema : Json :=
  .obj [("$schema", .str "http://json-schema.org/draft-07/schema#"),
        ("type", .str "object"),
        ("properties", .obj [
          ("host", .obj [("type", .str "string"),
                         ("additionalProperties", .bool false)]),
          ("ports", .obj [("type", .str "array"),
            ("items", .obj [("$schema", .str "nested"),
                            ("type", .str "integer")])])]),
        ("required", .arr [.str "host"]),
        ("additionalProperties", .bool false)]

/-- `exSchema` after cleaning: the unsupported keys are gone at every
level, everything else survives unchanged. -/
def exSchemaCleaned : Json :=
  .obj [("type", .str "object"),
        ("properties", .obj [
          ("host", .obj [("type", .str "string")]),
          ("ports", .obj [("type", .str "array"),
            ("items", .obj [("type", .str "integer")])])]),
        ("required", .arr [.str "host"])]

/-- First response of a scripted Anthropic turn: text plus one tool call. -/
def rawC1first : List ABlock :=
  [.text "scanning", .toolUse "t1" "http_probe" (.obj [("host", .str "pterodactyl.htb")])]

/-- Follow-up response of the scripted turn: it contains a fresh tool
call, which must stay unexecuted. -/
def rawC1follow : List ABlock :=
  [.toolUse "t2" "http_probe" (.obj [("host", .str "10.0.0.7")])]

/-- Scripted environment whose follow-up response contains a tool call. -/
def envC1 : TurnEnv .anthropic :=
  ⟨.ok rawC1first, .ok rawC1follow, fun _ _ => .ok "probe output"⟩

/-- Scripted environment whose first generation call raises. -/
def envC2 : TurnEnv .gemini :=
  ⟨.error "rate limited", .ok [.text "unused"], fun _ _ => .ok "unused"⟩

/-- A Gemini reply carrying three tool calls. -/
def rawC3 : List GPart :=
  [.functionCall "nmap_scan" [("target", .str "10.0.0.1")],
   .functionCall "gobuster_scan" [("url", .str "http://10.0.0.1")],
   .functionCall "nikto_scan" [("target", .str "10.0.0.1")]]

/-- Scripted environment with three tool calls whose second dispatch
raises. -/
def envC3 : TurnEnv .gemini :=
  ⟨.ok rawC3, .ok [.text "summary"],
   fun i _ => if i = 1 then .error "tool crashed" else .ok "ok output"⟩

/-- An Anthropic reply carrying one tool call. -/
def rawC4 : List ABlock :=
  [.toolUse "a1" "nmap_scan" (.obj [("target", .str "10.0.0.1")])]

/-- Scripted environment whose follow-up generation call raises. -/
def envC4 : TurnEnv .anthropic :=
  ⟨.ok rawC4, .error "overloaded", fun _ _ => .ok "scan done"⟩

/-- A command handler that changes nothing (no command is reached in the
empty-input scenario). -/
def idCommand : List Message → List Message × Nat := fun ms => (ms, 0)

/-! ### Lemmas about the schema cleaning -/

mutual
/-- On well-formed schemas the source transform runs without raising and
computes exactly the spec-side cleaning. -/
theorem convert_eq_clean_of_wf : ∀ j, schemaWF j = true → convert_schema j = some (cleanSpec j)
  | .obj kvs, h => by
      have h' : entriesWF kvs = true := h
      simp [convert_schema, cleanSpec, convertEntries_eq_clean_of_wf kvs h']
  | .null, h => nomatch h
  | .bool _, h => nomatch h
  | .num _, h => nomatch h
  | .str _, h => nomatch h
  | .arr _, h => nomatch h

/-- Entry-list case of `convert_eq_clean_of_wf`. -/
theorem convertEntries_eq_clean_of_wf :
    ∀ kvs, entriesWF kvs = true → convertEntries kvs = some (cleanEntries kvs)
  | [], _ => rfl
  | (k, v) :: rest, h => by
      rw [entriesWF, Bool.and_eq_true, Bool.or_eq_true] at h
      obtain ⟨h1, h2⟩ := h
      have ih2 := convertEntries_eq_clean_of_wf rest h2
      by_cases hu : UNSUPPORTED k = true
      · simp [convertEntries, cleanEntries, hu, ih2]
      · have h1' : entryWF k v = true := h1.resolve_left hu
        simp [convertEntries, cleanEntries, hu, ih2,
          convertValue_eq_clean_of_wf k v h1']

/-- Kept-entry value case of `convert_eq_clean_of_wf`. -/
theorem convertValue_eq_clean_of_wf :
    ∀ k v, entryWF k v = true → convertValue k v = some (cleanValue k v)
  | k, v, h => by
      by_cases hp : k = "properties"
      · subst hp
        cases v with
        | obj props =>
            simp only [entryWF, reduceIte] at h
            simp [convertValue, cleanValue,
              convertProps_eq_clean_of_wf props h]
        | null => simp [entryWF] at h
        | bool b => simp [entryWF] at h
        | num n => simp [entryWF] at h
        | str s => simp [entryWF] at h
        | arr es => simp [entryWF] at h
      · by_cases hi : k = "items"
        · subst hi
          cases v with
          | obj ikvs =>
              have h' : entriesWF ikvs = true := by simpa [entryWF] using h
              simp [convertValue, cleanValue,
                convertEntries_eq_clean_of_wf ikvs h']
          | null => simp [convertValue, cleanValue]
          | bool b => simp [convertValue, cleanValue]
          | num n => simp [convertValue, cleanValue]
          | str s => simp [convertValue, cleanValue]
          | arr es => simp [convertValue, cleanValue]
        · cases v <;> simp [convertValue, cleanValue, hp, hi]

/-- Property-table case of `convert_eq_clean_of_wf`. -/
theorem convertProps_eq_clean_of_wf :
    ∀ ps, propsWF ps = true → convertProps ps = some (cleanProps ps)
  | [], _ => rfl
  | (n, p) :: rest, h => by
      rw [propsWF, Bool.and_eq_true] at h
      obtain ⟨h1, h2⟩ := h
      simp [convertProps, cleanProps, convert_eq_clean_of_wf p h1,
        convertProps_eq_clean_of_wf rest h2]
end

mutual
/-- Outputs of the source transform are fixed points of it. -/
theorem convert_idem : ∀ j j', convert_schema j = some j' → convert_schema j' = some j'
  | .obj kvs, j', h => by
      simp only [convert_schema, Option.map_eq_some'] at h
      obtain ⟨kvs', hk, rfl⟩ := h
      simp [convert_schema, convertEntries_idem kvs kvs' hk]
  | .null, _, h => by simp [convert_schema] at h
  | .bool _, _, h => by simp [convert_schema] at h
  | .num _, _, h => by simp [convert_schema] at h
  | .str _, _, h => by simp [convert_schema] at h
  | .arr _, _, h => by simp [convert_schema] at h

/-- Entry-list case of `convert_idem`. -/
theorem convertEntries_idem :
    ∀ kvs kvs', convertEntries kvs = some kvs' → convertEntries kvs' = some kvs'
  | [], kvs', h => by
      cases h
      rfl
  | (k, v) :: rest, kvs', h => by
      by_cases hu : UNSUPPORTED k = true
      · exact convertEntries_idem rest kvs' (by simpa [convertEntries, hu] using h)
      · rw [convertEntries, if_neg hu] at h
        cases hv : convertValue k v with
        | none => simp [hv] at h
        | some v' =>
          cases hrest : convertEntries rest with
          | none => simp [hv, hrest] at h
          | some rest' =>
            simp only [hv, hrest, Option.bind_some] at h
            cases h
            simp [convertEntries, hu, convertValue_idem k v v' hv,
              convertEntries_idem rest rest' hrest]

/-- Kept-entry value case of `convert_idem`. -/
theorem convertValue_idem :
    ∀ k v v', convertValue k v = some v' → convertValue k v' = some v'
  | k, v, v', h => by
      by_cases hp : k = "properties"
      · subst hp
        cases v with
        | obj props =>
            simp only [convertValue, reduceIte, Option.map_eq_some'] at h
            obtain ⟨props', hps, rfl⟩ := h
            simp [convertValue, convertProps_idem props props' hps]
        | null => simp [convertValue] at h
        | bool b => simp [convertValue] at h
        | num n => simp [convertValue] at h
        | str s => simp [convertValue] at h
        | arr es => simp [convertValue] at h
      · by_cases hi : k = "items"
        · subst hi
          cases v with
          | obj ikvs =>
              simp only [convertValue, reduceIte, Option.map_eq_some',
                String.reduceEq] at h
              obtain ⟨ikvs', hik, rfl⟩ := h
              simp [convertValue, convertEntries_idem ikvs ikvs' hik]
          | null =>
              simp only [convertValue, String.reduceEq, reduceIte,
                Option.some.injEq] at h
              subst h
              simp [convertValue]
          | bool b =>
              simp only [convertValue, String.reduceEq, reduceIte,
                Option.some.injEq] at h
              subst h
              simp [convertValue]
          | num n =>
              simp only [convertValue, String.reduceEq, reduceIte,
                Option.some.injEq] at h
              subst h
              simp [convertValue]
          | str s =>
              simp only [convertValue, String.reduceEq, reduceIte,
                Option.some.injEq] at h
              subst h
              simp [convertValue]
          | arr es =>
              simp only [convertValue, String.reduceEq, reduceIte,
                Option.some.injEq] at h
              subst h
              simp [convertValue]
        · rw [convertValue.eq_def, if_neg hp, if_neg hi] at h
          cases h
          rw [convertValue.eq_def, if_neg hp, if_neg hi]

/-- Property-table case of `convert_idem`. -/
theorem convertProps_idem :
    ∀ ps ps', convertProps ps = some ps' → convertProps ps' = some ps'
  | [], ps', h => by
      cases h
      rfl
  | (n, p) :: rest, ps', h => by
      rw [convertProps] at h
      cases hp : convert_schema p with
      | none => simp [hp] at h
      | some p' =>
        cases hrest : convertProps rest with
        | none => simp [hp, hrest] at h
        | some rest' =>
          simp only [hp, hrest, Option.bind_some] at h
          cases h
          simp [convertProps, convert_idem p p' hp,
            convertProps_idem rest rest' hrest]
end

/-! ### Lemmas about the turn machine -/

/-- The execution loop dispatches every call of the round, in order: no
failure pattern can shorten the ghost log, because each dispatch failure
is caught inside the loop body. -/
theorem execLoop_executed :
    ∀ (p : Provider) (tool : Nat → ToolCall → Except String String) (i : Nat)
      (tcs : List ToolCall), (execLoop p tool i tcs).executed = tcs
  | p, _, _, [] => by cases p <;> rfl
  | p, tool, i, c :: cs => by
      cases p <;> simp [execLoop, execLoop_executed _ tool (i + 1) cs]

/-- The Anthropic accumulator collects one `tool_result` part per call. -/
theorem execLoop_parts_anthropic :
    ∀ (tool : Nat → ToolCall → Except String String) (i : Nat) (tcs : List ToolCall),
      (execLoop .anthropic tool i tcs).parts
        = mapWithIndex (fun n c => Part.toolResult c.id (resText (tool n c))) i tcs
  | _, _, [] => rfl
  | tool, i, c :: cs => by
      simp [execLoop, mapWithIndex, AnthropicClient.make_tool_result_message,
        execLoop_parts_anthropic tool (i + 1) cs]

/-- The Gemini accumulator collects one function-response message per
call. -/
theorem execLoop_msgs_gemini :
    ∀ (tool : Nat → ToolCall → Except String String) (i : Nat) (tcs : List ToolCall),
      (execLoop .gemini tool i tcs).msgs
        = mapWithIndex (fun n c =>
            GeminiClient.make_tool_result_message c.name (resText (tool n c))) i tcs
  | _, _, [] => rfl
  | tool, i, c :: cs => by
      simp [execLoop, mapWithIndex, execLoop_msgs_gemini tool (i + 1) cs]

/-- `mapWithIndex` preserves length. -/
theorem mapWithIndex_length {α β : Type} (f : Nat → α → β) :
    ∀ (i : Nat) (l : List α), (mapWithIndex f i l).length = l.length
  | _, [] => rfl
  | i, a :: l => by simp [mapWithIndex, mapWithIndex_length f (i + 1) l]

/-- `mapWithIndex` only depends on the pointwise behaviour of `f`. -/
theorem mapWithIndex_congr {α β : Type} {f g : Nat → α → β}
    (h : ∀ n a, f n a = g n a) :
    ∀ (i : Nat) (l : List α), mapWithIndex f i l = mapWithIndex g i l
  | _, [] => rfl
  | i, a :: l => by simp [mapWithIndex, h, mapWithIndex_congr h (i + 1) l]

/-- The batched Anthropic tool-result message of a nonempty round. -/
theorem toolResultMessages_anthropic (tool : Nat → ToolCall → Except String String)
    (tc : ToolCall) (rest : List ToolCall) :
    toolResultMessages .anthropic tool (tc :: rest)
      = [⟨"user", .parts (mapWithIndex
          (fun n c => Part.toolResult c.id (resText (tool n c))) 0 (tc :: rest))⟩] := by
  simp [toolResultMessages, execLoop_parts_anthropic, mapWithIndex]

/-- The per-call Gemini tool-result messages of a round. -/
theorem toolResultMessages_gemini (tool : Nat → ToolCall → Except String String)
    (tcs : List ToolCall) :
    toolResultMessages .gemini tool tcs
      = mapWithIndex (fun n c =>
          GeminiClient.make_tool_result_message c.name (resText (tool n c))) 0 tcs := by
  simp [toolResultMessages, execLoop_msgs_gemini]

/-- Reading the texts back out of the Anthropic batch recovers one text
per call. -/
theorem filterMap_partResultText (tool : Nat → ToolCall → Except String String) :
    ∀ (i : Nat) (tcs : List ToolCall),
      (mapWithIndex (fun n c => Part.toolResult c.id (resText (tool n c))) i tcs).filterMap
          partResultText
        = mapWithIndex (fun n c => resText (tool n c)) i tcs
  | _, [] => rfl
  | i, c :: cs => by
      simp [mapWithIndex, List.filterMap_cons, partResultText,
        filterMap_partResultText tool (i + 1) cs]

/-- Reading the texts back out of the Gemini messages recovers one text
per call. -/
theorem filterMap_messageResultText (tool : Nat → ToolCall → Except String String) :
    ∀ (i : Nat) (tcs : List ToolCall),
      (mapWithIndex (fun n c =>
          GeminiClient.make_tool_result_message c.name (resText (tool n c))) i tcs).filterMap
          messageResultText
        = mapWithIndex (fun n c => resText (tool n c)) i tcs
  | _, [] => rfl
  | i, c :: cs => by
      have ih := filterMap_messageResultText tool (i + 1) cs
      simp only [GeminiClient.make_tool_result_message] at ih ⊢
      simp [mapWithIndex, List.filterMap_cons, messageResultText, ih]

/-! ### Lemmas about the session store -/

/-- Decoding inverts part encoding. -/
theorem decodePart_encodePart : ∀ pt, decodePart (encodePart pt) = some pt := by
  intro pt
  cases pt <;> rfl

/-- Decoding inverts part-list encoding. -/
theorem decodeParts_encode :
    ∀ ps : List Part, decodeParts (ps.map encodePart) = some ps
  | [] => rfl
  | pt :: ps => by
      simp [decodeParts, decodePart_encodePart, decodeParts_encode ps]

/-- Decoding inverts content encoding. -/
theorem decodeContent_encodeContent : ∀ c, decodeContent (encodeContent c) = some c
  | .str s => rfl
  | .parts ps => by
      simp [encodeContent, decodeContent, decodeParts_encode ps]

/-- Decoding inverts message encoding. -/
theorem decodeMessage_encodeMessage : ∀ m, decodeMessage (encodeMessage m) = some m
  | ⟨r, c⟩ => by
      simp [encodeMessage, decodeMessage, decodeContent_encodeContent c]

/-- Decoding inverts message-list encoding. -/
theorem decodeMessages_encode :
    ∀ ms : List Message, decodeMessages (ms.map encodeMessage) = some ms
  | [] => rfl
  | m :: ms => by
      simp [decodeMessages, decodeMessage_encodeMessage m,
        decodeMessages_encode ms]

/-- The tool-call parts of a Gemini assistant message are the mirrored
function-call parts of the vendor reply, in vendor order. -/
theorem gemini_tool_call_parts :
    ∀ raw : List GPart,
      ((GeminiClient.parseGen raw).tool_calls.map fun tc =>
          Part.functionCall tc.name tc.arguments)
        = raw.filterMap mirrorGCall
  | [] => rfl
  | q :: qs => by
      have ih := gemini_tool_call_parts qs
      cases q with
      | text s =>
          simp only [GeminiClient.parseGen, List.filterMap_cons] at ih ⊢
          simpa [mirrorGCall] using ih
      | functionCall n args =>
          simp only [GeminiClient.parseGen, List.filterMap_cons] at ih ⊢
          simpa [mirrorGCall] using ih

/-! ### The checked claims -/

/-- C1: per human turn, at most one round of tool execution occurs — the
calls dispatched are exactly the first response's calls, exactly two
generation calls are issued, and the follow-up assistant message (with
whatever tool-call parts it carries) ends the history unexecuted, the
turn returning to await the next human input. -/
theorem chat_turn_single_round (p : Provider) (env : TurnEnv p)
    (msgs : List Message) (input : String) (raw fraw : RawResp p)
    (tc : ToolCall) (rest : List ToolCall)
    (h1 : env.first = .ok raw) (h2 : env.followup = .ok fraw)
    (htc : (parseResponse p raw).tool_calls = tc :: rest) :
    (runTurn p env msgs input).executed = tc :: rest
    ∧ (runTurn p env msgs input).genCalls = 2
    ∧ (runTurn p env msgs input).messages
        = msgs ++ [⟨"user", .str input⟩, mkAssistantMessage p raw]
          ++ toolResultMessages p env.tool (tc :: rest)
          ++ [mkAssistantMessage p fraw] := by
  refine ⟨?_, ?_, ?_⟩ <;>
    simp [runTurn, h1, h2, htc, execLoop_executed, List.append_assoc]

/-- C1 witness: a scripted Anthropic turn whose follow-up response itself
contains a tool call; only the first-round call is executed. -/
theorem chat_turn_single_round_witness :
    (runTurn .anthropic envC1 [] "scan port 80").executed
        = [⟨"t1", "http_probe", .obj [("host", .str "pterodactyl.htb")]⟩]
    ∧ (runTurn .anthropic envC1 [] "scan port 80").genCalls = 2
    ∧ (runTurn .anthropic envC1 [] "scan port 80").messages
        = [] ++ [⟨"user", .str "scan port 80"⟩, mkAssistantMessage .anthropic rawC1first]
          ++ toolResultMessages .anthropic envC1.tool
              [⟨"t1", "http_probe", .obj [("host", .str "pterodactyl.htb")]⟩]
          ++ [mkAssistantMessage .anthropic rawC1follow] :=
  chat_turn_single_round .anthropic envC1 [] "scan port 80" rawC1first rawC1follow
    ⟨"t1", "http_probe", .obj [("host", .str "pterodactyl.htb")]⟩ [] rfl rfl rfl

/-- C2: when the first generation call of a turn raises, the just-appended
user message is popped and the conversation is exactly what it was before
the turn; nothing is executed and no follow-up call is issued. -/
theorem chat_turn_initial_failure_rollback (p : Provider) (env : TurnEnv p)
    (msgs : List Message) (input : String) (err : String)
    (h : env.first = .error err) :
    (runTurn p env msgs input).messages = msgs
    ∧ (runTurn p env msgs input).executed = []
    ∧ (runTurn p env msgs input).followupCalls = 0 := by
  refine ⟨?_, ?_, ?_⟩ <;> simp [runTurn, h]

/-- C2 witness: a scripted first-call failure on a nonempty conversation. -/
theorem chat_turn_initial_failure_rollback_witness :
    (runTurn .gemini envC2 [⟨"user", .str "earlier"⟩] "do the thing").messages
        = [⟨"user", .str "earlier"⟩]
    ∧ (runTurn .gemini envC2 [⟨"user", .str "earlier"⟩] "do the thing").executed = []
    ∧ (runTurn .gemini envC2 [⟨"user", .str "earlier"⟩] "do the thing").followupCalls = 0 :=
  chat_turn_initial_failure_rollback .gemini envC2 [⟨"user", .str "earlier"⟩]
    "do the thing" "rate limited" rfl

/-- C3: within one tool round, every call of the round is dispatched in
the model's order whatever subset fails, the round appends one
tool-result entry per call whose text is the tool output on success and
`"Error executing tool: <cause>"` on failure, and the follow-up
generation call is still issued. -/
theorem chat_turn_tool_failures_isolated (p : Provider) (env : TurnEnv p)
    (msgs : List Message) (input : String) (raw : RawResp p)
    (tc : ToolCall) (rest : List ToolCall)
    (h1 : env.first = .ok raw)
    (htc : (parseResponse p raw).tool_calls = tc :: rest) :
    (runTurn p env msgs input).executed = tc :: rest
    ∧ (runTurn p env msgs input).followupCalls = 1
    ∧ (runTurn p env msgs input).messages
        = msgs ++ [⟨"user", .str input⟩, mkAssistantMessage p raw]
          ++ toolResultMessages p env.tool (tc :: rest)
          ++ followupTail p env
    ∧ toolResultCount p (toolResultMessages p env.tool (tc :: rest))
        = (tc :: rest).length
    ∧ allToolResultTexts p (toolResultMessages p env.tool (tc :: rest))
        = mapWithIndex (fun i c =>
            match env.tool i c with
            | .ok s => s
            | .error e => "Error executing tool: " ++ e) 0 (tc :: rest) := by
  refine ⟨?_, ?_, ?_, ?_, ?_⟩
  · cases hf : env.followup <;>
      simp [runTurn, h1, htc, hf, execLoop_executed]
  · cases hf : env.followup <;>
      simp [runTurn, h1, htc, hf]
  · cases hf : env.followup <;>
      simp [runTurn, h1, htc, hf, followupTail, List.append_assoc]
  · cases p with
    | anthropic =>
        rw [toolResultMessages_anthropic]
        simp [toolResultCount, mapWithIndex, mapWithIndex_length]
    | gemini =>
        rw [toolResultMessages_gemini]
        simp [toolResultCount, mapWithIndex, mapWithIndex_length]
  · have hres : ∀ (n : Nat) (c : ToolCall),
        resText (env.tool n c)
          = match env.tool n c with
            | .ok s => s
            | .error e => "Error executing tool: " ++ e := by
      intro n c
      cases env.tool n c <;> rfl
    cases p with
    | anthropic =>
        rw [toolResultMessages_anthropic]
        simp only [allToolResultTexts, filterMap_partResultText]
        exact mapWithIndex_congr hres 0 (tc :: rest)
    | gemini =>
        rw [toolResultMessages_gemini]
        simp only [allToolResultTexts, filterMap_messageResultText]
        exact mapWithIndex_congr hres 0 (tc :: rest)

/-- C3 witness: a Gemini round with three tool calls whose second
dispatch fails; all three are executed and recorded, the failing one as
error text, and the follow-up is still issued. -/
theorem chat_turn_tool_failures_isolated_witness :
    (runTurn .gemini envC3 [] "enumerate the host").executed
        = [⟨"nmap_scan", "nmap_scan", .obj [("target", .str "10.0.0.1")]⟩,
           ⟨"gobuster_scan", "gobuster_scan", .obj [("url", .str "http://10.0.0.1")]⟩,
           ⟨"nikto_scan", "nikto_scan", .obj [("target", .str "10.0.0.1")]⟩]
    ∧ (runTurn .gemini envC3 [] "enumerate the host").followupCalls = 1
    ∧ (runTurn .gemini envC3 [] "enumerate the host").messages
        = [] ++ [⟨"user", .str "enumerate the host"⟩, mkAssistantMessage .gemini rawC3]
          ++ toolResultMessages .gemini envC3.tool
              [⟨"nmap_scan", "nmap_scan", .obj [("target", .str "10.0.0.1")]⟩,
               ⟨"gobuster_scan", "gobuster_scan", .obj [("url", .str "http://10.0.0.1")]⟩,
               ⟨"nikto_scan", "nikto_scan", .obj [("target", .str "10.0.0.1")]⟩]
          ++ followupTail .gemini envC3
    ∧ toolResultCount .gemini (toolResultMessages .gemini envC3.tool
          [⟨"nmap_scan", "nmap_scan", .obj [("target", .str "10.0.0.1")]⟩,
           ⟨"gobuster_scan", "gobuster_scan", .obj [("url", .str "http://10.0.0.1")]⟩,
           ⟨"nikto_scan", "nikto_scan", .obj [("target", .str "10.0.0.1")]⟩]) = 3
    ∧ allToolResultTexts .gemini (toolResultMessages .gemini envC3.tool
          [⟨"nmap_scan", "nmap_scan", .obj [("target", .str "10.0.0.1")]⟩,
           ⟨"gobuster_scan", "gobuster_scan", .obj [("url", .str "http://10.0.0.1")]⟩,
           ⟨"nikto_scan", "nikto_scan", .obj [("target", .str "10.0.0.1")]⟩])
        = mapWithIndex (fun i c =>
            match envC3.tool i c with
            | .ok s => s
            | .error e => "Error executing tool: " ++ e) 0
            [⟨"nmap_scan", "nmap_scan", .obj [("target", .str "10.0.0.1")]⟩,
             ⟨"gobuster_scan", "gobuster_scan", .obj [("url", .str "http://10.0.0.1")]⟩,
             ⟨"nikto_scan", "nikto_scan", .obj [("target", .str "10.0.0.1")]⟩] :=
  chat_turn_tool_failures_isolated .gemini envC3 [] "enumerate the host" rawC3
    ⟨"nmap_scan", "nmap_scan", .obj [("target", .str "10.0.0.1")]⟩
    [⟨"gobuster_scan", "gobuster_scan", .obj [("url", .str "http://10.0.0.1")]⟩,
     ⟨"nikto_scan", "nikto_scan", .obj [("target", .str "10.0.0.1")]⟩] rfl rfl

/-- C4: when the follow-up generation call of a tool round raises, the
assistant message with its tool-call parts and all tool-result messages
of the round stay in history exactly as appended — no rollback — and the
follow-up was attempted exactly once, with no retry. -/
theorem chat_turn_followup_failure_preserves (p : Provider) (env : TurnEnv p)
    (msgs : List Message) (input : String) (raw : RawResp p) (err : String)
    (tc : ToolCall) (rest : List ToolCall)
    (h1 : env.first = .ok raw) (h2 : env.followup = .error err)
    (htc : (parseResponse p raw).tool_calls = tc :: rest) :
    (runTurn p env msgs input).messages
        = msgs ++ [⟨"user", .str input⟩, mkAssistantMessage p raw]
          ++ toolResultMessages p env.tool (tc :: rest)
    ∧ (runTurn p env msgs input).followupCalls = 1
    ∧ (runTurn p env msgs input).executed = tc :: rest := by
  refine ⟨?_, ?_, ?_⟩ <;>
    simp [runTurn, h1, h2, htc, execLoop_executed, List.append_assoc]

/-- C4 witness: a scripted Anthropic round whose follow-up call raises;
the executed round stays recorded. -/
theorem chat_turn_followup_failure_preserves_witness :
    (runTurn .anthropic envC4 [] "scan the target").messages
        = [] ++ [⟨"user", .str "scan the target"⟩, mkAssistantMessage .anthropic rawC4]
          ++ toolResultMessages .anthropic envC4.tool
              [⟨"a1", "nmap_scan", .obj [("target", .str "10.0.0.1")]⟩]
    ∧ (runTurn .anthropic envC4 [] "scan the target").followupCalls = 1
    ∧ (runTurn .anthropic envC4 [] "scan the target").executed
        = [⟨"a1", "nmap_scan", .obj [("target", .str "10.0.0.1")]⟩] :=
  chat_turn_followup_failure_preserves .anthropic envC4 [] "scan the target" rawC4
    "overloaded" ⟨"a1", "nmap_scan", .obj [("target", .str "10.0.0.1")]⟩ [] rfl rfl rfl

/-- C5: saving a session and loading it back returns exactly the
serialized message list (and the provider tag), and that serialization is
lossless — decoding recovers every message with role, content parts and
order intact, for any mix of text-only and tool-call messages. -/
theorem session_save_load_roundtrip (messages : List Message)
    (provider timestamp : String) :
    load_session_json (save_session_json messages provider timestamp)
        = some (.arr (messages.map encodeMessage), .str provider)
    ∧ decodeMessages (messages.map encodeMessage) = some messages :=
  ⟨rfl, decodeMessages_encode messages⟩

/-- C6 counterexample: for a Gemini reply that places its function call
before its text, the rebuilt assistant message does not mirror the vendor
part order, refuting the claim for the Gemini adapter. -/
theorem gemini_assistant_message_not_vendor_order :
    GeminiClient.make_assistant_message (GeminiClient.parseGen gemCE)
      ≠ ⟨"assistant", .parts (gemCE.map mirrorGPart)⟩ := by
  intro h
  exact absurd (congrArg messageTags h) (by decide)

/-- C6 (amended): the Anthropic adapter rebuilds the assistant message
with the vendor blocks mirrored exactly, in vendor order; the Gemini
adapter instead emits at most one text part first — the newline-join of
the nonempty vendor text parts — followed by the tool-call parts in
vendor order. -/
theorem make_assistant_message_order :
    (∀ raw : List ABlock,
        AnthropicClient.make_assistant_message raw
          = ⟨"assistant", .parts (raw.map mirrorABlock)⟩)
    ∧ (∀ raw : List GPart,
        GeminiClient.make_assistant_message (GeminiClient.parseGen raw)
          = ⟨"assistant", .parts (geminiTextLead raw ++ raw.filterMap mirrorGCall)⟩) := by
  constructor
  · intro raw
    unfold AnthropicClient.make_assistant_message
    exact congrArg (fun ps => (⟨"assistant", Content.parts ps⟩ : Message))
      (List.map_congr_left fun b _ => by cases b <;> rfl)
  · intro raw
    cases htext : (GeminiClient.parseGen raw).text with
    | some t =>
        simp only [GeminiClient.make_assistant_message, geminiTextLead, htext,
          gemini_tool_call_parts raw]
    | none =>
        simp only [GeminiClient.make_assistant_message, geminiTextLead, htext,
          gemini_tool_call_parts raw]

/-- C7: the schema-cleaning transform is idempotent — whenever it maps a
schema to a result, it maps that result to itself. -/
theorem convert_schema_idempotent (j j' : Json) (h : convert_schema j = some j') :
    convert_schema j' = some j' :=
  convert_idem j j' h

/-- C7 witness: the cleaned nested example schema is a fixed point. -/
theorem convert_schema_idempotent_witness :
    convert_schema exSchema = some exSchemaCleaned
    ∧ convert_schema exSchemaCleaned = some exSchemaCleaned :=
  ⟨rfl, convert_schema_idempotent exSchema exSchemaCleaned rfl⟩

/-- C8: on every well-formed schema the transform succeeds and computes
exactly the spec-side cleaning `cleanSpec`: the unsupported keywords are
removed at every nesting level reachable through object properties and
array item schemas, and every other key and the nested structure survive
unchanged. -/
theorem convert_schema_cleans (j : Json) (h : schemaWF j = true) :
    convert_schema j = some (cleanSpec j) :=
  convert_eq_clean_of_wf j h

/-- C8 witness: the nested example schema is well-formed, its cleaning
evaluates to the expected literal, and the transform computes it. -/
theorem convert_schema_cleans_witness :
    schemaWF exSchema = true
    ∧ cleanSpec exSchema = exSchemaCleaned
    ∧ convert_schema exSchema = some (cleanSpec exSchema) :=
  ⟨rfl, rfl, convert_schema_cleans exSchema rfl⟩

/-- C9: `save_summary` hands the generated text to the file write when
generation succeeds with text, and a failure placeholder when generation
raises — but when generation succeeds with `text = None` (a
tool-call-only reply), `f.write(None)` raises `TypeError` and the write
aborts, so the claim that the write can never be skipped or aborted fails
on that input. -/
theorem save_summary_aborts_on_textless_success :
    save_summary (.ok none) = none
    ∧ save_summary (.error "boom") = some "*Summary generation failed: boom*"
    ∧ save_summary (.ok (some "## Findings")) = some "## Findings" :=
  ⟨rfl, rfl, rfl⟩

/-- C10: an input that strips to the empty string makes the loop
iteration a no-op — the conversation is untouched, no generation call is
issued and no tool is executed. -/
theorem empty_input_is_noop (p : Provider) (env : TurnEnv p)
    (handleCommand : List Message → List Message × Nat) (msgs : List Message)
    (rawInput : String) (h : pyStrip rawInput = "") :
    chat_loop_step p env handleCommand msgs rawInput = ⟨msgs, [], 0, 0⟩ := by
  simp only [chat_loop_step, h]
  rw [if_neg (by decide : ¬(pyLower "" = "exit" ∨ pyLower "" = "quit"))]
  simp

/-- C10 witness: a whitespace-only input leaves everything untouched. -/
theorem empty_input_is_noop_witness :
    pyStrip "   " = ""
    ∧ chat_loop_step .anthropic envC1 idCommand [] "   " = ⟨[], [], 0, 0⟩ :=
  ⟨by decide, empty_input_is_noop .anthropic envC1 idCommand [] "   " (by decide)⟩

end Chat
